import Mathlib

set_option maxHeartbeats 1000000

/- This file is a shallow embedding, in Lean, of the serial command dispatcher
   implemented in src/CommandHandler.h, together with theorems about it.
   Bytes and characters are modelled as Nat values (32 = space, 9 = tab,
   10 = newline, 13 = carriage return, 0 = NUL); a C string is modelled as the
   list of its bytes up to, and excluding, its NUL terminator. -/

/-- Return codes of the library (enum class CommandHandlerReturn). -/
inductive CommandHandlerReturn where
  | NO_ERROR
  | COMMAND_NOT_FOUND
  | WRONG_NUM_OF_PARAMS
  | ERROR_PARSING_COMMAND
  | EMPTY_COMMAND_STRING
  | NO_COMMAND_WAITING
  | MALLOC_ERROR
  | OUT_OF_MEM
  | BUFFER_FULL
  | COMMAND_TOO_LONG
  | EEPROM_FULL
  | UNKNOWN_ERROR
deriving DecidableEq

open CommandHandlerReturn

/-- Number of chars reserved for the input buffer (COMMAND_SIZE_MAX). -/
def COMMAND_SIZE_MAX : Nat := 150

/-- Max space used in EEPROM (EEPROM_SIZE_MAX). -/
def EEPROM_SIZE_MAX : Nat := 256

/-- ASCII lower-casing of one byte, the behaviour of C tolower on the
    ASCII range used by the library. -/
def tolower (b : Nat) : Nat := if 65 ≤ b ∧ b ≤ 90 then b + 32 else b

/-- One iteration of the inner 8-step loop of CommandLookup::crc32b:
    mask = -(crc AND 1); crc = (crc SHR 1) XOR (0xEDB88320 AND mask),
    in 32-bit unsigned arithmetic. -/
def crcRound (crc : Nat) : Nat :=
  let mask := if crc % 2 = 1 then 4294967295 else 0
  Nat.xor (crc / 2) (Nat.land 3988292384 mask)

/-- The 8-fold repetition of the inner loop of crc32b. -/
def crcBits : Nat → Nat → Nat
  | 0, crc => crc
  | j + 1, crc => crcBits j (crcRound crc)

/-- The outer while loop of CommandLookup::crc32b: it stops at the first NUL
    byte, lower-cases each byte, XORs it into the crc register and runs the
    eight inner iterations. -/
def crc32Loop : List Nat → Nat → Nat
  | [], crc => crc
  | b :: rest, crc =>
    if b = 0 then crc
    else crc32Loop rest (crcBits 8 (Nat.xor crc (tolower b)))

/-- CommandLookup::crc32b: crc is seeded with all ones and the result is
    complemented (XOR with 0xFFFFFFFF in 32-bit arithmetic). -/
def crc32b (str : List Nat) : Nat := Nat.xor (crc32Loop str 4294967295) 4294967295

/-- State of a ParameterLookup object.  `buf` models the bytes of the buffer
    from the start of the string up to, and excluding, the position of the
    original NUL terminator recorded in _endOfString; `endOfString` is that
    position as an offset from the start of the buffer; the remaining fields
    are _stringHasNULLS and _size. -/
structure PLState where
  buf : List Nat
  endOfString : Nat
  stringHasNULLS : Bool
  size : Nat
deriving DecidableEq

/-- Whether a byte is a parameter delimiter, i.e. a space or a tab. -/
def isDelim (b : Nat) : Bool := b == 32 || b == 9

/-- The test "loop > _theCommand && 0 != *(loop - 1)" used by the scanning
    loops: `none` stands for the loop pointer still being at the start of the
    buffer, `some p` for the previous (already processed) byte being p. -/
def prevNonNull : Option Nat → Bool
  | some p => !(p == 0)
  | none => false

/-- The loop of ParameterLookup::subSpacesForNULL.  It stops at the first NUL
    byte, replaces each space or tab with a NUL and increments the parameter
    count when the preceding processed byte was not already a NUL.  Returns
    the processed buffer, the final value of _size, and the stop position of
    the loop pointer (which becomes _endOfString). -/
def subSpacesLoop : List Nat → Option Nat → Nat → List Nat × Nat × Nat
  | [], _, size => ([], size, 0)
  | b :: rest, prev, size =>
    if b = 0 then (b :: rest, size, 0)
    else
      let b2 := if isDelim b then 0 else b
      let size2 := if isDelim b && prevNonNull prev then size + 1 else size
      let r := subSpacesLoop rest (some b2) size2
      (b2 :: r.1, r.2.1, r.2.2 + 1)

/-- ParameterLookup::subSpacesForNULL: _size starts at 1, the buffer is
    scanned by subSpacesLoop, _endOfString is set to the stop position and
    _stringHasNULLS is set. -/
def subSpacesForNULL (st : PLState) : PLState :=
  let r := subSpacesLoop st.buf none 1
  { buf := r.1, endOfString := r.2.2, stringHasNULLS := true, size := r.2.1 }

/-- The loop of ParameterLookup::restoreSpaces: every NUL strictly before
    _endOfString (the second argument) is replaced with a space. -/
def restoreLoop : List Nat → Nat → List Nat
  | buf, 0 => buf
  | [], _ + 1 => []
  | b :: rest, n + 1 => (if b = 0 then 32 else b) :: restoreLoop rest n

/-- ParameterLookup::restoreSpaces. -/
def restoreSpaces (st : PLState) : PLState :=
  { st with buf := restoreLoop st.buf st.endOfString, stringHasNULLS := false }

/-- The scan loop of ParameterLookup::getParamPtr.  The pointer walks while it
    is strictly before _endOfString (the fuel argument equals the number of
    positions left before _endOfString); it returns the current position once
    the counter has reached zero on a non-NUL byte, and decrements the counter
    at every NUL whose predecessor was not a NUL. -/
def gppLoop : List Nat → Nat → Int → Option Nat → Nat → Option Nat
  | _, 0, _, _, _ => none
  | [], _ + 1, _, _, _ => none
  | b :: rest, fuel + 1, count, prev, pos =>
    if count = 0 ∧ ¬ b = 0 then some pos
    else
      let count2 := if b = 0 ∧ prevNonNull prev = true then count - 1 else count
      gppLoop rest fuel count2 (some b) (pos + 1)

/-- ParameterLookup::getParamPtr: formats the buffer with NULs if it is not
    already, then scans for the requested parameter.  The returned position is
    an offset into the buffer (`none` models the NULL pointer). -/
def getParamPtr (st : PLState) (idx : Int) : Option Nat × PLState :=
  let st2 := if st.stringHasNULLS then st else subSpacesForNULL st
  (gppLoop st2.buf st2.endOfString idx none 0, st2)

/-- ParameterLookup::operator[]: index -1 restores the spaces (when the string
    has NULs) and returns the start of the buffer; index -2 locates parameter
    1, restores the spaces and returns that position; any other index formats
    the buffer with NULs if needed and delegates to getParamPtr. -/
def getParam (st : PLState) (idx : Int) : Option Nat × PLState :=
  if idx = -1 then
    (some 0, if st.stringHasNULLS then restoreSpaces st else st)
  else if idx = -2 then
    let r := getParamPtr st 1
    (r.1, restoreSpaces r.2)
  else
    let st2 := if ¬ st.stringHasNULLS then subSpacesForNULL st else st
    getParamPtr st2 idx

/-- The ParameterLookup constructor: records the buffer, starts with
    _stringHasNULLS = false and immediately calls subSpacesForNULL (the
    initial values of _endOfString and _size are irrelevant: the C++ members
    are uninitialised until subSpacesForNULL assigns them). -/
def mkParameterLookup (commandStr : List Nat) : PLState :=
  subSpacesForNULL { buf := commandStr, endOfString := 0, stringHasNULLS := false, size := 0 }

/-- Reading the C string that starts at offset p of the buffer: the bytes from
    p up to the first NUL; the original NUL terminator sits just past the end
    of the modelled list, so reading stops there at the latest. -/
def readCStr (buf : List Nat) (p : Nat) : List Nat :=
  (buf.drop p).takeWhile (fun b => !(b == 0))

/-- One entry of the command table (struct dataStruct): the stored 32-bit
    hash, the parameter count n (an int, -1 meaning any) and the handler
    function pointer f, modelled as an opaque numeric handler identifier. -/
structure dataStruct where
  hash : Nat
  n : Int
  f : Nat
deriving DecidableEq

/-- The linear scan of CommandLookup::callStoredCommand over the registered
    entries: first entry whose stored hash equals the requested hash wins; the
    second argument is the requested hash and the third the index of the first
    entry of the remaining list. -/
def findCommand : List dataStruct → Nat → Nat → Option (Nat × dataStruct)
  | [], _, _ => none
  | d :: rest, reqHash, i =>
    if reqHash = d.hash then some (i, d) else findCommand rest reqHash (i + 1)

/-- CommandLookup::callStoredCommand.  `none` models the undefined behaviour
    of calling crc32b on the NULL pointer returned by params[0] when the
    buffer holds no token.  The returned Option Nat is the index of the entry
    whose handler was invoked (`none` when no handler ran).  On the AVR target
    int and unsigned int are 16 bits wide, so the comparison
    "d.n != params.size() - 1" converts d.n to unsigned and is performed
    modulo 2^16; params.size() - 1 likewise wraps modulo 2^16. -/
def callStoredCommand (cmds : List dataStruct) (params : PLState) :
    Option (CommandHandlerReturn × Option Nat) :=
  let r0 := getParam params 0
  match r0.1 with
  | none => none
  | some p =>
    let reqHash := crc32b (readCStr r0.2.buf p)
    match findCommand cmds reqHash 0 with
    | none => some (COMMAND_NOT_FOUND, none)
    | some (i, d) =>
      if ¬ d.n % 65536 = (((r0.2.size + 65535) % 65536 : Nat) : Int) ∧ ¬ d.n = -1 then
        some (WRONG_NUM_OF_PARAMS, none)
      else
        some (NO_ERROR, some i)

/-- State of a CommandHandler: the registered command table, the _bufferFull
    and _command_too_long flags, and the input buffer contents (whose length
    is _bufferLength; the buffer array always holds these bytes followed by a
    NUL terminator).  `log` is a ghost trace recording, in order, the table
    index of every handler that has been invoked; the C++ object has no such
    member and no operation reads it. -/
structure HState where
  commands : List dataStruct
  bufferFull : Bool
  command_too_long : Bool
  inputBuffer : List Nat
  log : List Nat
deriving DecidableEq

/-- The CommandHandler constructor: both flags clear, empty buffer. -/
def initHandler (cmds : List dataStruct) : HState :=
  { commands := cmds, bufferFull := false, command_too_long := false,
    inputBuffer := [], log := [] }

/-- CommandHandler::commandWaiting, which simply returns bufferFull(). -/
def commandWaiting (s : HState) : Bool := s.bufferFull

/-- CommandHandler::clearBuffer. -/
def clearBuffer (s : HState) : HState :=
  { s with bufferFull := false, command_too_long := false, inputBuffer := [] }

/-- CommandHandler::addCommandChar.  Note that the newline branch of the C++
    if/else chain sets _bufferFull and then falls through to the final
    "return CommandHandlerReturn::UNKNOWN_ERROR" statement. -/
def addCommandChar (s : HState) (c : Nat) : CommandHandlerReturn × HState :=
  if s.bufferFull then (BUFFER_FULL, s)
  else if c = 10 then (UNKNOWN_ERROR, { s with bufferFull := true })
  else if c = 13 then (NO_ERROR, s)
  else if s.command_too_long ∨ COMMAND_SIZE_MAX - 1 ≤ s.inputBuffer.length then
    (COMMAND_TOO_LONG, { s with command_too_long := true })
  else (NO_ERROR, { s with inputBuffer := s.inputBuffer ++ [c] })

/-- CommandHandler::executeCommand.  The error code is computed by three
    successive overwriting checks exactly as in the source; dispatch runs only
    when no error was recorded, and clearBuffer runs on every path. -/
def executeCommand (s : HState) : Option (CommandHandlerReturn × HState) :=
  let e1 := if ¬ commandWaiting s then NO_COMMAND_WAITING else NO_ERROR
  let e2 := if s.command_too_long then COMMAND_TOO_LONG else e1
  let e3 := if s.inputBuffer.length = 0 ∧ e2 = NO_ERROR then EMPTY_COMMAND_STRING else e2
  if e3 = NO_ERROR then
    match callStoredCommand s.commands (mkParameterLookup s.inputBuffer) with
    | none => none
    | some (r, inv) =>
      some (r, clearBuffer { s with log := s.log ++ inv.toList })
  else some (e3, clearBuffer s)

/-- The while loop of CommandHandler::executeStartupCommands.  `eeprom` maps
    EEPROM addresses to their byte contents (the EEPROM peripheral is an
    external collaborator of the library); `charsLeft` is
    EEPROM_SIZE_MAX - numCharsRead, so the 0 case is the "stored command
    unterminated" path which queues a newline and stops. -/
def startupLoop (eeprom : Nat → Nat) : Nat → Nat → CommandHandlerReturn → HState →
    Option (CommandHandlerReturn × HState)
  | _, 0, result, s => some (result, (addCommandChar s 10).2)
  | idx, charsLeft + 1, result, s =>
    let c := eeprom idx
    if c = 0 then some (result, s)
    else if result = NO_ERROR then
      let s1 := (addCommandChar s c).2
      if commandWaiting s1 then
        match executeCommand s1 with
        | none => none
        | some (r, s2) => startupLoop eeprom (idx + 1) charsLeft r s2
      else startupLoop eeprom (idx + 1) charsLeft result s1
    else startupLoop eeprom (idx + 1) charsLeft result s

/-- CommandHandler::executeStartupCommands: address 0 holds the stored-command
    presence flag and the command bytes start at address 1. -/
def executeStartupCommands (eeprom : Nat → Nat) (s : HState) :
    Option (CommandHandlerReturn × HState) :=
  if ¬ eeprom 0 = 1 then some (NO_COMMAND_WAITING, s)
  else startupLoop eeprom 1 EEPROM_SIZE_MAX NO_ERROR s

/-- An EEPROM state whose presence flag is set and whose stored bytes are cs
    followed by a NUL terminator (and NUL padding beyond). -/
def eepromOf (cs : List Nat) : Nat → Nat :=
  fun i => if i = 0 then 1 else cs.getD (i - 1) 0

/-- Specification helper: the null form of a NUL-free string, as the class
    comment describes it (every space or tab replaced by a NUL). -/
def nullForm (l : List Nat) : List Nat := l.map (fun b => if isDelim b then 0 else b)

/-- Specification helper: how many times subSpacesLoop increments _size on a
    NUL-free string, given whether the previously processed byte was
    non-NUL.  This counts the boundaries where a delimiter directly follows a
    non-delimiter byte. -/
def incrCount : List Nat → Bool → Nat
  | [], _ => 0
  | b :: rest, p =>
    if isDelim b then (if p then 1 else 0) + incrCount rest false
    else incrCount rest true

/-- Specification helper: the number of maximal runs of non-delimiter bytes,
    carrying a flag telling whether a run is already in progress. -/
def runCountAux : List Nat → Bool → Nat
  | [], _ => 0
  | b :: rest, inRun =>
    if isDelim b then runCountAux rest false
    else (if inRun then 0 else 1) + runCountAux rest true

/-- The number of maximal runs of non-delimiter (non-space, non-tab) bytes of
    a string: the token count in the sense of the specification. -/
def runCount (l : List Nat) : Nat := runCountAux l false

/-- Specification helper: whether the string ends inside a run, i.e. its last
    byte is not a delimiter (the flag decides the empty case). -/
def endsInRun : List Nat → Bool → Bool
  | [], p => p
  | b :: rest, _ => endsInRun rest (! isDelim b)

/-- The invariant tying a ParameterLookup state to the original string it was
    constructed over: the recorded end of string is the original length, and
    the buffer is the null form of the original exactly when _stringHasNULLS
    is set, and the original itself otherwise. -/
def PLInv (orig : List Nat) (st : PLState) : Prop :=
  st.endOfString = orig.length ∧
    st.buf = (if st.stringHasNULLS then nullForm orig else orig)

/-- The startup replay as the specification describes it: the stored bytes are
    fed one at a time through addCommandChar, each completed line is executed
    in order, and after the first line whose execution fails no further byte
    is ingested and no further line executed; the result is that first failure
    (or NO_ERROR when every line succeeds). -/
def replaySpec : List Nat → HState → Option (CommandHandlerReturn × HState)
  | [], s => some (NO_ERROR, s)
  | c :: cs, s =>
    let s1 := (addCommandChar s c).2
    if commandWaiting s1 then
      match executeCommand s1 with
      | none => none
      | some (r, s2) => if r = NO_ERROR then replaySpec cs s2 else some (r, s2)
    else replaySpec cs s1

/-- The dispatch procedure as the specification describes it: hash token 0,
    select the first registered entry with that hash (expressed through the
    standard library scans List.find? and List.findIdx?), fail with
    COMMAND_NOT_FOUND when none matches, fail with WRONG_NUM_OF_PARAMS when
    the arity is neither the -1 sentinel nor tokenCount - 1 (in exact Int
    arithmetic), and otherwise invoke exactly the selected entry. -/
def dispatchSpec (cmds : List dataStruct) (tok : List Nat) (sz : Nat) :
    CommandHandlerReturn × Option Nat :=
  match List.find? (fun d => d.hash == crc32b tok) cmds,
        List.findIdx? (fun d => d.hash == crc32b tok) cmds with
  | some d, some i =>
    if ¬ d.n = -1 ∧ ¬ d.n = (sz : Int) - 1 then (WRONG_NUM_OF_PARAMS, none)
    else (NO_ERROR, some i)
  | _, _ => (COMMAND_NOT_FOUND, none)

/- ------------------------------------------------------------------ -/
/- Helper lemmas shared between claims                                 -/
/- ------------------------------------------------------------------ -/

lemma tolower_tolower (b : Nat) : tolower (tolower b) = tolower b := by
  unfold tolower
  split_ifs <;> omega

lemma tolower_ne_zero (b : Nat) (h : ¬ b = 0) : ¬ tolower b = 0 := by
  unfold tolower
  split_ifs <;> simp_all

lemma crc32Loop_map_tolower (l : List Nat) : ∀ crc : Nat,
    crc32Loop (l.map tolower) crc = crc32Loop l crc := by
  induction l with
  | nil => intro crc; rfl
  | cons b rest ih =>
    intro crc
    by_cases hb : b = 0
    · subst hb
      simp [crc32Loop, tolower]
    · simp [crc32Loop, hb, tolower_ne_zero b hb, tolower_tolower, ih]

/- ------------------------------------------------------------------ -/
/- Claim C4                                                            -/
/- ------------------------------------------------------------------ -/

/-- Claim C4 (evidence of the code bug): ingesting a newline into a freshly
    constructed handler transitions the buffer to the ready state but returns
    UNKNOWN_ERROR, because the newline branch of addCommandChar falls through
    to the final defensive return statement that the source comments as
    unreachable. -/
theorem claim4_newline_returns_unknown :
    addCommandChar (initHandler []) 10 =
      (UNKNOWN_ERROR, { initHandler [] with bufferFull := true }) := by
  decide

/- ------------------------------------------------------------------ -/
/- Claim C5                                                            -/
/- ------------------------------------------------------------------ -/

set_option maxRecDepth 40000 in
/-- Claim C5 counterexample: after ingesting 150 bytes 'A' (which sets the
    overflow flag without any newline, so no completed line is buffered and
    bufferFull is still false), executeCommand returns COMMAND_TOO_LONG, not
    NO_COMMAND_WAITING as the claim states. -/
theorem claim5_counterexample :
    ((List.replicate 150 65).foldl (fun t c => (addCommandChar t c).2)
        (initHandler [])).bufferFull = false ∧
    executeCommand ((List.replicate 150 65).foldl (fun t c => (addCommandChar t c).2)
        (initHandler [])) = some (COMMAND_TOO_LONG, initHandler []) := by
  decide

/-- Claim C5 as amended: when no completed line is buffered, executeCommand
    fails with NO_COMMAND_WAITING if the overflow flag is clear, but with
    COMMAND_TOO_LONG if the overflow flag was set before any newline arrived
    (the overflow check of executeCommand overwrites the earlier
    NO_COMMAND_WAITING error code); in both cases the buffer is cleared and
    no handler is invoked. -/
theorem claim5_amended (s : HState) (h : s.bufferFull = false) :
    executeCommand s =
      some ((if s.command_too_long then COMMAND_TOO_LONG else NO_COMMAND_WAITING),
        clearBuffer s) := by
  cases htl : s.command_too_long <;>
    simp [executeCommand, commandWaiting, h, htl]

theorem claim5_witness :
    (initHandler []).bufferFull = false ∧
      executeCommand (initHandler []) =
        some ((if (initHandler []).command_too_long then COMMAND_TOO_LONG
          else NO_COMMAND_WAITING), clearBuffer (initHandler [])) :=
  ⟨rfl, claim5_amended (initHandler []) rfl⟩

/- ------------------------------------------------------------------ -/
/- Claim C6                                                            -/
/- ------------------------------------------------------------------ -/

/-- Claim C6: every call to executeCommand, whatever result it returns, resets
    the line buffer before returning: both flags are cleared, the buffer holds
    the empty string, the command table is untouched, and the resulting state
    (up to the ghost invocation log) is exactly the freshly constructed
    handler state, so a subsequent ingest/execute cycle behaves like the
    first-ever cycle. -/
theorem claim6_execute_always_resets (s : HState) (r : CommandHandlerReturn) (s2 : HState)
    (h : executeCommand s = some (r, s2)) :
    s2.bufferFull = false ∧ s2.command_too_long = false ∧ s2.inputBuffer = [] ∧
      s2.commands = s.commands ∧ { s2 with log := [] } = initHandler s.commands := by
  have goal_of : ∀ t : HState, t.commands = s.commands → clearBuffer t = s2 →
      s2.bufferFull = false ∧ s2.command_too_long = false ∧ s2.inputBuffer = [] ∧
        s2.commands = s.commands ∧ { s2 with log := [] } = initHandler s.commands := by
    intro t ht hs
    subst hs
    simp [clearBuffer, initHandler, ht]
  cases hb : s.bufferFull with
  | false =>
    have hex : executeCommand s =
        some ((if s.command_too_long then COMMAND_TOO_LONG else NO_COMMAND_WAITING),
          clearBuffer s) := by
      cases htl : s.command_too_long <;> simp [executeCommand, commandWaiting, hb, htl]
    rw [hex, Option.some.injEq, Prod.mk.injEq] at h
    exact goal_of s rfl h.2
  | true =>
    cases htl : s.command_too_long with
    | true =>
      have hex : executeCommand s = some (COMMAND_TOO_LONG, clearBuffer s) := by
        simp [executeCommand, htl]
      rw [hex, Option.some.injEq, Prod.mk.injEq] at h
      exact goal_of s rfl h.2
    | false =>
      by_cases hlen : s.inputBuffer.length = 0
      · have hex : executeCommand s = some (EMPTY_COMMAND_STRING, clearBuffer s) := by
          simp [executeCommand, commandWaiting, hb, htl, hlen]
        rw [hex, Option.some.injEq, Prod.mk.injEq] at h
        exact goal_of s rfl h.2
      · rcases hcall : callStoredCommand s.commands (mkParameterLookup s.inputBuffer) with
          _ | ⟨r2, inv⟩
        · have hex : executeCommand s = none := by
            simp [executeCommand, commandWaiting, hb, htl, hlen, hcall]
          rw [hex] at h
          exact Option.noConfusion h
        · have hex : executeCommand s =
              some (r2, clearBuffer { s with log := s.log ++ inv.toList }) := by
            simp [executeCommand, commandWaiting, hb, htl, hlen, hcall]
          rw [hex, Option.some.injEq, Prod.mk.injEq] at h
          exact goal_of { s with log := s.log ++ inv.toList } rfl h.2

theorem claim6_witness :
    executeCommand (initHandler []) = some (NO_COMMAND_WAITING, initHandler []) ∧
      ((initHandler []).bufferFull = false ∧ (initHandler []).command_too_long = false ∧
        (initHandler []).inputBuffer = [] ∧
        (initHandler []).commands = (initHandler []).commands ∧
        { initHandler [] with log := [] } = initHandler (initHandler []).commands) :=
  ⟨by decide, claim6_execute_always_resets (initHandler []) NO_COMMAND_WAITING
    (initHandler []) (by decide)⟩

/- ------------------------------------------------------------------ -/
/- Claim C7                                                            -/
/- ------------------------------------------------------------------ -/

/-- Claim C7: whenever a completed line awaits execution (bufferFull is set
    and executeCommand has not yet drained it), every addCommandChar call, for
    any byte, returns BUFFER_FULL and leaves the whole handler state (buffered
    line, length, both flags) unchanged. -/
theorem claim7_buffer_full_rejection (s : HState) (c : Nat) (h : s.bufferFull = true) :
    addCommandChar s c = (BUFFER_FULL, s) := by
  simp [addCommandChar, h]

theorem claim7_witness :
    ({ initHandler [] with bufferFull := true } : HState).bufferFull = true ∧
      addCommandChar { initHandler [] with bufferFull := true } 65 =
        (BUFFER_FULL, { initHandler [] with bufferFull := true }) :=
  ⟨rfl, claim7_buffer_full_rejection _ 65 rfl⟩

/- ------------------------------------------------------------------ -/
/- Claim C8                                                            -/
/- ------------------------------------------------------------------ -/

/-- Claim C8: the hash function crc32b is pure and case-insensitive: hashing a
    string equals hashing its lower-cased form (for bytes in the ASCII range,
    where the embedding of tolower is faithful), and in particular the hashes
    of "HELO", "helo" and "HeLo" coincide. -/
theorem claim8_crc_case_insensitive :
    (∀ s : List Nat, (∀ b ∈ s, b < 128) → crc32b s = crc32b (s.map tolower)) ∧
      crc32b [72, 69, 76, 79] = crc32b [104, 101, 108, 111] ∧
      crc32b [104, 101, 108, 111] = crc32b [72, 101, 76, 111] := by
  refine ⟨?_, by decide, by decide⟩
  intro s _
  unfold crc32b
  rw [crc32Loop_map_tolower]

theorem claim8_witness :
    (∀ b ∈ [72, 69, 76, 79], b < 128) ∧
      crc32b [72, 69, 76, 79] = crc32b (List.map tolower [72, 69, 76, 79]) :=
  ⟨by decide, claim8_crc_case_insensitive.1 [72, 69, 76, 79] (by decide)⟩

/- ------------------------------------------------------------------ -/
/- Claim C10                                                           -/
/- ------------------------------------------------------------------ -/

/-- Claim C10: a line that overflowed is never dispatched.  The overflow flag,
    once set, survives every further addCommandChar call, and any
    executeCommand call made while it is set returns COMMAND_TOO_LONG, resets
    the buffer and invokes no registered handler (the ghost invocation log is
    unchanged). -/
theorem claim10_overflow_never_dispatched :
    (∀ (s : HState) (c : Nat), s.command_too_long = true →
        ((addCommandChar s c).2).command_too_long = true) ∧
    (∀ s : HState, s.command_too_long = true →
        executeCommand s = some (COMMAND_TOO_LONG, clearBuffer s) ∧
          (clearBuffer s).log = s.log) := by
  constructor
  · intro s c h
    simp only [addCommandChar]
    split_ifs <;> simp_all
  · intro s h
    refine ⟨?_, rfl⟩
    simp [executeCommand, h]

theorem claim10_witness :
    ((addCommandChar { initHandler [] with command_too_long := true } 65).2).command_too_long
        = true ∧
      executeCommand { initHandler [] with command_too_long := true } =
        some (COMMAND_TOO_LONG, clearBuffer { initHandler [] with command_too_long := true }) :=
  ⟨claim10_overflow_never_dispatched.1 _ 65 rfl,
    (claim10_overflow_never_dispatched.2 _ rfl).1⟩

/- ------------------------------------------------------------------ -/
/- Claim C3                                                            -/
/- ------------------------------------------------------------------ -/

lemma findCommand_fst (cmds : List dataStruct) (h : Nat) : ∀ k,
    (findCommand cmds h k).map Prod.fst = List.findIdx? (fun d => d.hash == h) cmds k := by
  induction cmds with
  | nil => intro k; rfl
  | cons d rest ih =>
    intro k
    by_cases hd : h = d.hash
    · simp [findCommand, hd]
    · have hne : (d.hash == h) = false := by simp [Ne.symm hd]
      simp [findCommand, hd, hne, ih]

lemma findCommand_snd (cmds : List dataStruct) (h : Nat) : ∀ k,
    (findCommand cmds h k).map Prod.snd = List.find? (fun d => d.hash == h) cmds := by
  induction cmds with
  | nil => intro k; rfl
  | cons d rest ih =>
    intro k
    by_cases hd : h = d.hash
    · simp [findCommand, List.find?, hd]
    · have hne : (d.hash == h) = false := by simp [Ne.symm hd]
      simp [findCommand, List.find?, hd, hne, ih]

lemma arity_check_iff (n : Int) (sz : Nat) (h1 : -32768 ≤ n) (h2 : n ≤ 32767)
    (h3 : 1 ≤ sz) (h4 : sz ≤ 150) :
    ((¬ n % 65536 = (((sz + 65535) % 65536 : Nat) : Int)) ∧ ¬ n = -1) ↔
      (¬ n = -1 ∧ ¬ n = (sz : Int) - 1) := by
  omega

/-- Claim C3: callStoredCommand computes the case-insensitive hash of token 0,
    linearly scans the registered entries in registration order and selects
    the first entry whose stored hash matches; with no match it returns
    COMMAND_NOT_FOUND; when the selected arity is not the -1 sentinel and
    differs from tokenCount - 1 it returns WRONG_NUM_OF_PARAMS invoking no
    handler; otherwise it invokes exactly the selected entry's handler and
    succeeds.  The hypotheses confine the statement to views actually
    producible from the 150-byte buffer (1 ≤ size ≤ 150) and to arities
    representable in the 16-bit int of the AVR target, under which the
    16-bit-wrapping comparison of the source coincides with the exact
    arithmetic of the specification. -/
theorem claim3_dispatch (cmds : List dataStruct) (st st1 : PLState) (p : Nat)
    (hget : getParam st 0 = (some p, st1))
    (hsz1 : 1 ≤ st1.size) (hsz2 : st1.size ≤ 150)
    (harity : ∀ d ∈ cmds, -32768 ≤ d.n ∧ d.n ≤ 32767) :
    callStoredCommand cmds st = some (dispatchSpec cmds (readCStr st1.buf p) st1.size) := by
  simp only [callStoredCommand, dispatchSpec, hget]
  cases hfc : findCommand cmds (crc32b (readCStr st1.buf p)) 0 with
  | none =>
    have h1 := findCommand_fst cmds (crc32b (readCStr st1.buf p)) 0
    have h2 := findCommand_snd cmds (crc32b (readCStr st1.buf p)) 0
    rw [hfc] at h1 h2
    simp only [Option.map_none'] at h1 h2
    rw [← h1, ← h2]
  | some id =>
    obtain ⟨i, d⟩ := id
    have h1 := findCommand_fst cmds (crc32b (readCStr st1.buf p)) 0
    have h2 := findCommand_snd cmds (crc32b (readCStr st1.buf p)) 0
    rw [hfc] at h1 h2
    simp only [Option.map_some'] at h1 h2
    have hd : d ∈ cmds := List.mem_of_find?_eq_some h2.symm
    obtain ⟨hb1, hb2⟩ := harity d hd
    rw [← h1, ← h2]
    rcases Classical.em (d.n = -1) with hn1 | hn1
    · simp [hn1]
    · rcases Classical.em (d.n = (st1.size : Int) - 1) with hn2 | hn2
      · have hmod : d.n % 65536 = (((st1.size + 65535) % 65536 : Nat) : Int) := by omega
        simp [hn1, hn2, hmod]
        omega
      · have hmod : ¬ d.n % 65536 = (((st1.size + 65535) % 65536 : Nat) : Int) := by omega
        simp [hn1, hn2, hmod]
        omega

theorem claim3_witness :
    getParam (mkParameterLookup [72, 73]) 0 = (some 0, mkParameterLookup [72, 73]) ∧
      callStoredCommand [⟨crc32b [104, 105], 0, 3⟩] (mkParameterLookup [72, 73]) =
        some (dispatchSpec [⟨crc32b [104, 105], 0, 3⟩]
          (readCStr (mkParameterLookup [72, 73]).buf 0) (mkParameterLookup [72, 73]).size) :=
  ⟨by decide,
    claim3_dispatch [⟨crc32b [104, 105], 0, 3⟩] (mkParameterLookup [72, 73])
      (mkParameterLookup [72, 73]) 0 (by decide) (by decide) (by decide) (by decide)⟩

/- ------------------------------------------------------------------ -/
/- Claim C1                                                            -/
/- ------------------------------------------------------------------ -/

lemma subSpacesLoop_eq (l : List Nat) : ∀ (prev : Option Nat) (s : Nat),
    (∀ b ∈ l, ¬ b = 0) →
    subSpacesLoop l prev s = (nullForm l, s + incrCount l (prevNonNull prev), l.length) := by
  induction l with
  | nil => intro prev s _; simp [subSpacesLoop, nullForm, incrCount]
  | cons b rest ih =>
    intro prev s hnz
    have hb : ¬ b = 0 := hnz b (List.mem_cons_self b rest)
    have hrest : ∀ x ∈ rest, ¬ x = 0 := fun x hx => hnz x (List.mem_cons_of_mem b hx)
    have hbeq : (b == 0) = false := by simp [hb]
    by_cases hd : isDelim b = true
    · simp only [subSpacesLoop, if_neg hb]
      rw [ih _ _ hrest]
      simp [nullForm, incrCount, prevNonNull, hd]
      cases prev with
      | none => simp
      | some q =>
        by_cases hq : q = 0
        · simp [hq]
        · simp [hq]
          omega
    · have hd2 : isDelim b = false := by simp at hd; simp [hd]
      simp only [subSpacesLoop, if_neg hb]
      rw [ih _ _ hrest]
      simp [nullForm, incrCount, prevNonNull, hd2, hbeq]

lemma runCountAux_eq (l : List Nat) : ∀ p : Bool,
    runCountAux l p + (if p then 1 else 0) =
      incrCount l p + (if endsInRun l p then 1 else 0) := by
  induction l with
  | nil => intro p; cases p <;> simp [runCountAux, incrCount, endsInRun]
  | cons b rest ih =>
    intro p
    by_cases hd : isDelim b = true
    · have h := ih false
      cases her : endsInRun rest false <;> rw [her] at h <;> simp at h <;>
        cases p <;> simp [runCountAux, incrCount, endsInRun, hd, her] <;> omega
    · have hd2 : isDelim b = false := by simp at hd; simp [hd]
      have h := ih true
      cases her : endsInRun rest true <;> rw [her] at h <;> simp at h <;>
        cases p <;> simp [runCountAux, incrCount, endsInRun, hd2, her] <;> omega

lemma endsInRun_last (l : List Nat) (c : Nat) : ∀ p : Bool,
    l.getLast? = some c → endsInRun l p = ! isDelim c := by
  induction l with
  | nil => intro p h; simp at h
  | cons b rest ih =>
    intro p h
    cases rest with
    | nil =>
      simp at h
      subst h
      simp [endsInRun]
    | cons b2 rest2 =>
      have h2 : (b2 :: rest2).getLast? = some c := by
        rwa [List.getLast?_cons_cons] at h
      exact ih (! isDelim b) h2

/-- Claim C1 as amended: for a non-empty string over visible characters,
    spaces and tabs whose final character is not a delimiter, the token count
    computed at construction equals the number of maximal runs of
    non-delimiter characters (a string ending in a delimiter reports one more,
    because _size is incremented at the end of a run rather than its start). -/
theorem claim1_amended (orig : List Nat) (c : Nat)
    (hchar : ∀ b ∈ orig, b = 9 ∨ (32 ≤ b ∧ b ≤ 126))
    (hlast : orig.getLast? = some c) (hc : isDelim c = false) :
    (mkParameterLookup orig).size = runCount orig := by
  have hnz : ∀ b ∈ orig, ¬ b = 0 := by
    intro b hb
    rcases hchar b hb with h | h <;> omega
  have hsub := subSpacesLoop_eq orig none 1 hnz
  have h1 := runCountAux_eq orig false
  have h2 := endsInRun_last orig c false hlast
  rw [hc] at h2
  simp only [Bool.not_false] at h2
  rw [h2] at h1
  simp at h1
  unfold mkParameterLookup subSpacesForNULL
  simp [hsub, runCount, prevNonNull]
  omega

/-- Claim C1 counterexample: the two-character string "A " lies in the
    claimed character set and has exactly one maximal run of non-delimiter
    characters, yet the view reports a token count of 2: the trailing
    delimiter makes _size overcount, refuting the claim as stated. -/
theorem claim1_counterexample :
    (∀ b ∈ [65, 32], b = 9 ∨ (32 ≤ b ∧ b ≤ 126)) ∧
      (mkParameterLookup [65, 32]).size = 2 ∧ runCount [65, 32] = 1 := by
  decide

theorem claim1_witness :
    (mkParameterLookup [72, 69, 76, 79, 32, 32, 32, 49]).size = 2 ∧
      runCount [72, 69, 76, 79, 32, 32, 32, 49] = 2 ∧
      (mkParameterLookup [72, 69, 76, 79, 32, 32, 32, 49]).size =
        runCount [72, 69, 76, 79, 32, 32, 32, 49] :=
  ⟨by decide, by decide,
    claim1_amended [72, 69, 76, 79, 32, 32, 32, 49] 49 (by decide) (by decide) (by decide)⟩

/- ------------------------------------------------------------------ -/
/- Claim C2                                                            -/
/- ------------------------------------------------------------------ -/

lemma restoreLoop_nullForm (l : List Nat) (h : ∀ b ∈ l, ¬ b = 0 ∧ ¬ b = 9) :
    restoreLoop (nullForm l) l.length = l := by
  induction l with
  | nil => rfl
  | cons b rest ih =>
    obtain ⟨hb0, hb9⟩ := h b (List.mem_cons_self b rest)
    have hrest := fun x hx => h x (List.mem_cons_of_mem b hx)
    have hcons : nullForm (b :: rest) = (if isDelim b then 0 else b) :: nullForm rest := rfl
    rw [hcons, List.length_cons]
    cases hd : isDelim b with
    | true =>
      have hb32 : b = 32 := by
        simp [isDelim] at hd
        rcases hd with h32 | h9
        · exact h32
        · exact absurd h9 hb9
      rw [if_pos rfl]
      rw [restoreLoop]
      rw [if_pos rfl, ih hrest, hb32]
    | false =>
      rw [if_neg Bool.false_ne_true]
      rw [restoreLoop]
      rw [if_neg hb0, ih hrest]

lemma restoreLoop_self (l : List Nat) (h : ∀ b ∈ l, ¬ b = 0) : ∀ n, restoreLoop l n = l := by
  induction l with
  | nil => intro n; cases n <;> rfl
  | cons b rest ih =>
    intro n
    cases n with
    | zero => rfl
    | succ m =>
      have hb := h b (List.mem_cons_self b rest)
      simp [restoreLoop, hb, ih (fun x hx => h x (List.mem_cons_of_mem b hx)) m]

lemma PLInv_mk (orig : List Nat) (h : ∀ b ∈ orig, ¬ b = 0) :
    PLInv orig (mkParameterLookup orig) := by
  unfold mkParameterLookup subSpacesForNULL PLInv
  simp [subSpacesLoop_eq orig none 1 h]

lemma PLInv_sub (orig : List Nat) (st : PLState) (h : ∀ b ∈ orig, ¬ b = 0)
    (hinv : PLInv orig st) (hn : st.stringHasNULLS = false) :
    PLInv orig (subSpacesForNULL st) := by
  obtain ⟨he, hbuf⟩ := hinv
  rw [hn] at hbuf
  simp at hbuf
  unfold subSpacesForNULL PLInv
  simp [hbuf, subSpacesLoop_eq orig none 1 h]

lemma PLInv_restore (orig : List Nat) (st : PLState)
    (h : ∀ b ∈ orig, ¬ b = 0 ∧ ¬ b = 9) (hinv : PLInv orig st) :
    PLInv orig (restoreSpaces st) := by
  have h0 : ∀ b ∈ orig, ¬ b = 0 := fun b hb => (h b hb).1
  obtain ⟨he, hbuf⟩ := hinv
  unfold restoreSpaces PLInv
  cases hn : st.stringHasNULLS with
  | true =>
    rw [hn] at hbuf
    simp at hbuf
    simp [he, hbuf, restoreLoop_nullForm orig h]
  | false =>
    rw [hn] at hbuf
    simp at hbuf
    simp [he, hbuf, restoreLoop_self orig h0]

lemma getParamPtr_state (st : PLState) (idx : Int) :
    (getParamPtr st idx).2 = if st.stringHasNULLS then st else subSpacesForNULL st := rfl

lemma PLInv_gpp (orig : List Nat) (st : PLState) (idx : Int)
    (h : ∀ b ∈ orig, ¬ b = 0) (hinv : PLInv orig st) :
    PLInv orig (getParamPtr st idx).2 ∧ ((getParamPtr st idx).2).stringHasNULLS = true := by
  rw [getParamPtr_state]
  cases hn : st.stringHasNULLS with
  | true =>
    rw [if_pos rfl]
    exact ⟨hinv, hn⟩
  | false =>
    rw [if_neg Bool.false_ne_true]
    exact ⟨PLInv_sub orig st h hinv hn, rfl⟩

lemma getParam_state_neg_one (st : PLState) :
    (getParam st (-1)).2 = if st.stringHasNULLS then restoreSpaces st else st := by
  simp [getParam]

lemma getParam_state_neg_two (st : PLState) :
    (getParam st (-2)).2 = restoreSpaces (getParamPtr st 1).2 := by
  simp [getParam]

lemma getParam_state_other (st : PLState) (idx : Int) (h1 : ¬ idx = -1) (h2 : ¬ idx = -2) :
    (getParam st idx).2 =
      (getParamPtr (if ¬ st.stringHasNULLS then subSpacesForNULL st else st) idx).2 := by
  simp [getParam, h1, h2]

lemma getParam_neg_one_flag (st : PLState) : ((getParam st (-1)).2).stringHasNULLS = false := by
  rw [getParam_state_neg_one]
  cases hn : st.stringHasNULLS <;> simp [restoreSpaces, hn]

lemma PLInv_getParam (orig : List Nat) (st : PLState) (idx : Int)
    (h : ∀ b ∈ orig, ¬ b = 0 ∧ ¬ b = 9) (hinv : PLInv orig st) :
    PLInv orig (getParam st idx).2 := by
  have h0 : ∀ b ∈ orig, ¬ b = 0 := fun b hb => (h b hb).1
  by_cases h1 : idx = -1
  · subst h1
    rw [getParam_state_neg_one]
    cases hn : st.stringHasNULLS with
    | true => simpa using PLInv_restore orig st h hinv
    | false => simpa using hinv
  · by_cases h2 : idx = -2
    · subst h2
      rw [getParam_state_neg_two]
      exact PLInv_restore orig _ h (PLInv_gpp orig st 1 h0 hinv).1
    · rw [getParam_state_other st idx h1 h2]
      cases hn : st.stringHasNULLS with
      | true =>
        simp only [hn, Bool.not_true, if_neg (by simp : ¬ False)]
        exact (PLInv_gpp orig st idx h0 hinv).1
      | false =>
        rw [if_pos Bool.false_ne_true]
        exact (PLInv_gpp orig (subSpacesForNULL st) idx h0 (PLInv_sub orig st h0 hinv hn)).1

lemma PLInv_fold (orig : List Nat) (qs : List Int) :
    ∀ st : PLState, (∀ b ∈ orig, ¬ b = 0 ∧ ¬ b = 9) → PLInv orig st →
    PLInv orig (qs.foldl (fun t i => (getParam t i).2) st) := by
  induction qs with
  | nil => intro st _ hinv; exact hinv
  | cons q rest ih =>
    intro st h hinv
    exact ih _ h (PLInv_getParam orig st q h hinv)

lemma takeWhile_nonzero (l : List Nat) (h : ∀ b ∈ l, ¬ b = 0) :
    l.takeWhile (fun b => !(b == 0)) = l := by
  induction l with
  | nil => rfl
  | cons b rest ih =>
    have hb : ¬ b = 0 := h b (List.mem_cons_self b rest)
    simp [List.takeWhile_cons, hb, ih (fun x hx => h x (List.mem_cons_of_mem b hx))]

/-- Claim C2 as amended: for every NUL-terminated input string containing no
    tab character, after any finite sequence of indexed queries (arbitrary
    indices, -2 and out-of-range included), querying index -1 returns the
    start of the buffer, whose contents are exactly the original string.  (For
    strings with tabs the claim fails: a tab delimiter is replaced by a NUL in
    the null form and restored as a space, see the counterexample.) -/
theorem claim2_amended (orig : List Nat) (qs : List Int)
    (h : ∀ b ∈ orig, ¬ b = 0 ∧ ¬ b = 9) :
    (getParam (qs.foldl (fun t i => (getParam t i).2) (mkParameterLookup orig)) (-1)).1
        = some 0 ∧
      readCStr ((getParam (qs.foldl (fun t i => (getParam t i).2)
        (mkParameterLookup orig)) (-1)).2).buf 0 = orig := by
  have h0 : ∀ b ∈ orig, ¬ b = 0 := fun b hb => (h b hb).1
  have hfold := PLInv_fold orig qs (mkParameterLookup orig) h (PLInv_mk orig h0)
  constructor
  · simp [getParam]
  · have hfin := PLInv_getParam orig _ (-1) h hfold
    have hflag := getParam_neg_one_flag
      (qs.foldl (fun t i => (getParam t i).2) (mkParameterLookup orig))
    obtain ⟨he, hbuf⟩ := hfin
    rw [hflag, if_neg Bool.false_ne_true] at hbuf
    rw [readCStr, hbuf]
    simp [takeWhile_nonzero orig h0]

/-- Claim C2 counterexample: for the input "a TAB b" the whole-string query
    after construction returns "a SPACE b": the tab was replaced by a NUL at
    construction and restored as a space, so the original string is not
    recovered character for character. -/
theorem claim2_counterexample :
    readCStr ((getParam (mkParameterLookup [97, 9, 98]) (-1)).2).buf 0 = [97, 32, 98] ∧
      ¬ readCStr ((getParam (mkParameterLookup [97, 9, 98]) (-1)).2).buf 0 = [97, 9, 98] := by
  decide

theorem claim2_witness :
    (∀ b ∈ [72, 69, 76, 79, 32, 49, 32, 50, 32, 51, 46, 51], ¬ b = 0 ∧ ¬ b = 9) ∧
      ((getParam (([0, 1, -2, 7, -3, 2] : List Int).foldl (fun t i => (getParam t i).2)
          (mkParameterLookup [72, 69, 76, 79, 32, 49, 32, 50, 32, 51, 46, 51])) (-1)).1
        = some 0 ∧
      readCStr ((getParam (([0, 1, -2, 7, -3, 2] : List Int).foldl
          (fun t i => (getParam t i).2)
          (mkParameterLookup [72, 69, 76, 79, 32, 49, 32, 50, 32, 51, 46, 51])) (-1)).2).buf 0
        = [72, 69, 76, 79, 32, 49, 32, 50, 32, 51, 46, 51]) :=
  ⟨by decide,
    claim2_amended [72, 69, 76, 79, 32, 49, 32, 50, 32, 51, 46, 51]
      [0, 1, -2, 7, -3, 2] (by decide)⟩

/- ------------------------------------------------------------------ -/
/- Claim C9                                                            -/
/- ------------------------------------------------------------------ -/

lemma getD_ne_zero (l : List Nat) (h : ∀ b ∈ l, ¬ b = 0) (j : Nat) (hj : j < l.length) :
    ¬ l.getD j 0 = 0 := by
  rw [List.getD_eq_getElem?_getD, List.getElem?_eq_getElem hj]
  simpa using h _ (List.getElem_mem hj)

lemma getD_at_length (l : List Nat) : l.getD l.length 0 = 0 := by
  rw [List.getD_eq_getElem?_getD, List.getElem?_eq_none (Nat.le_refl _)]
  rfl

lemma startupLoop_skip : ∀ (k : Nat) (eeprom : Nat → Nat) (idx n : Nat)
    (result : CommandHandlerReturn) (s : HState),
    ¬ result = NO_ERROR → k < n →
    (∀ j, j < k → ¬ eeprom (idx + j) = 0) → eeprom (idx + k) = 0 →
    startupLoop eeprom idx n result s = some (result, s) := by
  intro k
  induction k with
  | zero =>
    intro eeprom idx n result s hr hn hjlt h0
    obtain ⟨m, rfl⟩ : ∃ m, n = m + 1 := ⟨n - 1, by omega⟩
    have hidx : eeprom idx = 0 := by simpa using h0
    simp only [startupLoop]
    rw [if_pos hidx]
  | succ k ih =>
    intro eeprom idx n result s hr hn hjlt h0
    obtain ⟨m, rfl⟩ : ∃ m, n = m + 1 := ⟨n - 1, by omega⟩
    have hidx : ¬ eeprom idx = 0 := by simpa using hjlt 0 (by omega)
    simp only [startupLoop]
    rw [if_neg hidx, if_neg hr]
    refine ih eeprom (idx + 1) m result s hr (by omega) (fun j hj => ?_) ?_
    · have := hjlt (j + 1) (by omega)
      rwa [show idx + (j + 1) = idx + 1 + j by omega] at this
    · have := h0
      rwa [show idx + (k + 1) = idx + 1 + k by omega] at this

lemma startupLoop_replay : ∀ (cs : List Nat) (eeprom : Nat → Nat) (idx n : Nat) (s : HState),
    (∀ j, eeprom (idx + j) = cs.getD j 0) → (∀ b ∈ cs, ¬ b = 0) → cs.length < n →
    startupLoop eeprom idx n NO_ERROR s = replaySpec cs s := by
  intro cs
  induction cs with
  | nil =>
    intro eeprom idx n s hee hnz hlen
    obtain ⟨m, rfl⟩ : ∃ m, n = m + 1 := ⟨n - 1, by omega⟩
    have h0 : eeprom idx = 0 := by simpa using hee 0
    simp only [startupLoop, replaySpec]
    rw [if_pos h0]
  | cons c rest ih =>
    intro eeprom idx n s hee hnz hlen
    have hlen1 : rest.length + 1 < n := by simpa using hlen
    obtain ⟨m, rfl⟩ : ∃ m, n = m + 1 := ⟨n - 1, by omega⟩
    have hc : eeprom idx = c := by simpa using hee 0
    have hcnz : ¬ c = 0 := hnz c (List.mem_cons_self c rest)
    have hee2 : ∀ j, eeprom (idx + 1 + j) = rest.getD j 0 := by
      intro j
      have hj := hee (j + 1)
      rw [show idx + (j + 1) = idx + 1 + j by omega] at hj
      simpa using hj
    have hnz2 : ∀ b ∈ rest, ¬ b = 0 := fun b hb => hnz b (List.mem_cons_of_mem c hb)
    have hlen2 : rest.length < m := by omega
    simp only [startupLoop, replaySpec]
    rw [hc, if_neg hcnz, if_true]
    by_cases hw : commandWaiting (addCommandChar s c).2 = true
    · rw [if_pos hw, if_pos hw]
      cases hex : executeCommand (addCommandChar s c).2 with
      | none => rfl
      | some rs =>
        obtain ⟨r, s2⟩ := rs
        show startupLoop eeprom (idx + 1) m r s2 =
          if r = NO_ERROR then replaySpec rest s2 else some (r, s2)
        by_cases hr : r = NO_ERROR
        · subst hr
          rw [if_pos rfl]
          exact ih eeprom (idx + 1) m s2 hee2 hnz2 hlen2
        · rw [if_neg hr]
          refine startupLoop_skip rest.length eeprom (idx + 1) m r s2 hr hlen2
            (fun j hj => ?_) ?_
          · rw [hee2 j]
            exact getD_ne_zero rest hnz2 j hj
          · rw [hee2 rest.length]
            exact getD_at_length rest
    · rw [if_neg hw, if_neg hw]
      exact ih eeprom (idx + 1) m (addCommandChar s c).2 hee2 hnz2 hlen2

/-- Claim C9: with the stored-command presence flag set and the stored bytes
    being the NUL-terminated sequence cs (of length at most 255, so that the
    terminator is reached before the read cap), executeStartupCommands behaves
    exactly as the specification replay: it feeds the stored bytes one at a
    time through addCommandChar, executes each completed line in order via
    executeCommand, stops ingesting and executing after the first line whose
    execution fails (while continuing to scan storage, which touches no
    state), and returns that first failure, or NO_ERROR when every line
    succeeds. -/
theorem claim9_startup_replay (cs : List Nat) (s : HState)
    (hnz : ∀ b ∈ cs, ¬ b = 0) (hlen : cs.length ≤ 255) :
    executeStartupCommands (eepromOf cs) s = replaySpec cs s := by
  unfold executeStartupCommands
  rw [if_neg (by simp [eepromOf] : ¬ ¬ eepromOf cs 0 = 1)]
  refine startupLoop_replay cs (eepromOf cs) 1 EEPROM_SIZE_MAX s (fun j => ?_) hnz
    (by unfold EEPROM_SIZE_MAX; omega)
  simp only [eepromOf, if_neg (by omega : ¬ 1 + j = 0)]
  rw [show 1 + j - 1 = j by omega]

theorem claim9_witness :
    executeStartupCommands (eepromOf [80, 73, 78, 71, 10])
        (initHandler [⟨crc32b [112, 105, 110, 103], 0, 5⟩]) =
      replaySpec [80, 73, 78, 71, 10] (initHandler [⟨crc32b [112, 105, 110, 103], 0, 5⟩]) ∧
    replaySpec [80, 73, 78, 71, 10] (initHandler [⟨crc32b [112, 105, 110, 103], 0, 5⟩]) =
      some (NO_ERROR,
        { initHandler [⟨crc32b [112, 105, 110, 103], 0, 5⟩] with log := [0] }) :=
  ⟨claim9_startup_replay [80, 73, 78, 71, 10]
      (initHandler [⟨crc32b [112, 105, 110, 103], 0, 5⟩]) (by decide) (by decide),
    by decide⟩
